import Mathlib

/-!
# Verification of the parking-finder demo

Shallow embedding of the core logic of the parking-finder web app
(`app.js`, in two shipped variants) and of its companion HTTP service,
together with theorems settling the specification's claims.

Numbers that the JavaScript source manipulates exactly (coordinates,
capacities, spot counts) are modelled as `ℚ`/`ℤ`; the transcendental
haversine computation is modelled over `ℝ`.
-/

namespace ParkingDemo

/-- A parking lot record, as held by the client-side store
(`mock.lots` in `app.js` / `part_000`). -/
structure Lot where
  id : String
  name : String
  lat : ℚ
  lng : ℚ
  capacity : ℤ
  available_spots : ℤ
  price : Option String
  updated_at : String
deriving DecidableEq, Repr

/-- A geocoded place from the gazetteer. -/
structure Place where
  name : String
  lat : ℚ
  lng : ℚ
deriving DecidableEq, Repr

/-- A point with real-valued coordinates, the argument shape of the
haversine functions (JS objects exposing `.lat`/`.lng`). -/
structure Geo where
  lat : ℝ
  lng : ℝ

/-- Coordinates of a lot, cast to `ℝ` for distance computation. -/
def Lot.geo (l : Lot) : Geo := ⟨(l.lat : ℝ), (l.lng : ℝ)⟩

/-- Degrees to radians: `toRad(d) = d*Math.PI/180`
(`app.js` line 217 / `part_000` line 381, also inlined in
`distanceMeters`). -/
noncomputable def toRad (d : ℝ) : ℝ := d * Real.pi / 180

/-- `distanceMeters(a,b)` (`app.js` lines 231–232, `part_000`
lines 395–396): haversine great-circle distance with Earth radius
6 371 000 m.  The `mock` closure's `haversine` (`app.js` lines 218–219)
is the textually identical formula. -/
noncomputable def distanceMeters (a b : Geo) : ℝ :=
  2 * 6371000 * Real.arcsin (Real.sqrt (
    Real.sin (toRad (b.lat - a.lat) / 2) ^ 2 +
    Real.cos (toRad a.lat) * Real.cos (toRad b.lat) *
      Real.sin (toRad (b.lng - a.lng) / 2) ^ 2))

/-! ## Occupancy percentage (renderCharts)

Two variants ship in the repository.  `app.js` line 171 computes
`Math.round((l.capacity - l.available_spots) / l.capacity * 100)` with
no guard; `part_000` line 313 computes
`Math.round((l.capacity - l.available_spots) / Math.max(1, l.capacity) * 100)`.
A JS division `0/0` is `NaN` (and `x/0`, `x ≠ 0`, is `±Infinity`), so the
unguarded variant produces no integer at `capacity = 0`; this is modelled
with `Option ℤ`. -/

/-- Occupancy percentage as computed by `renderCharts` in `app.js`
line 171: `Math.round((capacity - available_spots) / capacity * 100)`,
`none` when `capacity = 0` (JS `NaN`/`±Infinity`). -/
def occupancyPctAppJs (capacity available_spots : ℤ) : Option ℤ :=
  if capacity = 0 then none
  else some (round (((capacity : ℚ) - available_spots) / capacity * 100))

/-- Occupancy percentage as computed by the fallback branch of
`renderCharts` in `part_000` line 313:
`Math.round((capacity - available_spots) / Math.max(1, capacity) * 100)`. -/
def occupancyPctPart000 (capacity available_spots : ℤ) : ℤ :=
  round (((capacity : ℚ) - available_spots) / (max 1 (capacity : ℚ)) * 100)

/-! ## Wire-record normalization (part_000 `mapBackendParking`) -/

/-- A record in the shape the HTTP service puts on the wire
(`{id,name,lat,lng,capacity,available}`); `available_spots`, `price`
and `updated_at` may or may not be present on the JS object. -/
structure WireRecord where
  id : String
  name : String
  lat : ℚ
  lng : ℚ
  capacity : ℤ
  available_spots : Option ℤ
  available : Option ℤ
  price : Option String
  updated_at : Option String
deriving DecidableEq, Repr

/-- `mapBackendParking(p)` (`part_000` lines 332–343): normalizes a wire
record into the frontend `Lot` shape.  `available_spots` is taken from
the record when it is a number, else from `available`, else `0`;
`updated_at` falls back (JS `||`, so also on the empty string) to the
current time `now`. -/
def mapBackendParking (now : String) (p : WireRecord) : Lot :=
  { id := p.id
    name := p.name
    lat := p.lat
    lng := p.lng
    capacity := p.capacity
    available_spots :=
      match p.available_spots with
      | some n => n
      | none => p.available.getD 0
    price := p.price
    updated_at :=
      match p.updated_at with
      | some s => if s = "" then now else s
      | none => now }

/-! ## The update feed: `mock.pushUpdates`

`app.js` lines 225–227 (identical in `part_000` lines 389–391):

    pushUpdates(ids){ const changes=[]; for (const id of ids){
      const i=lots.findIndex(l=>l.id===id); if (i===-1) continue;
      const delta=Math.floor((Math.random()-0.5)*8);
      lots[i].available_spots=Math.max(0,Math.min(lots[i].capacity,lots[i].available_spots+delta));
      lots[i].updated_at=new Date().toISOString();
      changes.push({ ...lots[i] }); } return changes; }

The pseudo-random draws and clock reads are modelled as oracle streams
`deltas`, `nows`, advanced once per found id (a draw happens only after
the `continue` guard). -/

/-- The in-place mutation of `lots[i]`:
`available_spots := Math.max(0, Math.min(capacity, available_spots+delta))`,
`updated_at` refreshed. -/
def updateLot (now : String) (delta : ℤ) (l : Lot) : Lot :=
  { l with
    available_spots := max 0 (min l.capacity (l.available_spots + delta))
    updated_at := now }

/-- `lots.findIndex(l => l.id===id)` followed by the update of the found
element: `none` when `findIndex` yields `-1`, otherwise the updated
record (the copy pushed onto `changes`) paired with the updated store. -/
def updateFirst (p : Lot → Bool) (f : Lot → Lot) : List Lot → Option (Lot × List Lot)
  | [] => none
  | l :: ls =>
    if p l then some (f l, f l :: ls)
    else (updateFirst p f ls).map (fun r => (r.1, l :: r.2))

/-- The `for (const id of ids)` loop of `mock.pushUpdates`, threading the
store and the oracle index `k`; returns the final store together with
the `changes` list the function returns. -/
def pushUpdatesGo (deltas : ℕ → ℤ) (nows : ℕ → String) :
    List String → List Lot → ℕ → List Lot × List Lot
  | [], lots, _ => (lots, [])
  | id :: ids, lots, k =>
    match updateFirst (fun l => l.id == id) (updateLot (nows k) (deltas k)) lots with
    | none => pushUpdatesGo deltas nows ids lots k
    | some (u, lots') =>
      let rest := pushUpdatesGo deltas nows ids lots' (k + 1)
      (rest.1, u :: rest.2)

/-- `mock.pushUpdates(ids)`: first component is the store after the call
(the source mutates the captured `lots` array), second component is the
returned `changes` list. -/
def pushUpdates (deltas : ℕ → ℤ) (nows : ℕ → String)
    (ids : List String) (lots : List Lot) : List Lot × List Lot :=
  pushUpdatesGo deltas nows ids lots 0

/-- The ParkingLot data invariant from the spec:
`0 ≤ available_spots ≤ capacity`. -/
def LotInv (l : Lot) : Prop :=
  0 ≤ l.available_spots ∧ l.available_spots ≤ l.capacity

/-- The fields of a lot that `pushUpdates` never writes to. -/
def lotFrame (l : Lot) : String × String × ℚ × ℚ × ℤ × Option String :=
  (l.id, l.name, l.lat, l.lng, l.capacity, l.price)

/-- The in-memory fixture store `mock.lots` (`app.js` lines 210–216 /
`part_000` lines 374–380), before the `updated_at` stamping. -/
def mockLots : List Lot :=
  [ ⟨"CP-101", "Flinders Lane Car Park",    -37.8173, 144.9655, 220, 88, some ("$3/hr"), ""⟩,
    ⟨"CP-102", "Russell St Car Park",       -37.8128, 144.9675, 160, 47, some ("$4/hr"), ""⟩,
    ⟨"CP-103", "QV Car Park",               -37.8106, 144.9652, 120, 12, some ("$5/hr"), ""⟩,
    ⟨"CP-201", "Derby Rd Car Park",         -37.8779, 145.0449, 180, 61, some ("$3/hr"), ""⟩,
    ⟨"CP-202", "Caulfield Plaza Car Park",  -37.8765, 145.0431, 140,  9, some ("$3/hr"), ""⟩ ]

/-! ## `mock.parkingNear` (app.js lines 222–224 / part_000 lines 386–388)

    async parkingNear(lat,lng,radius=900){ const c={lat,lng};
      const items=lots.filter(p=>haversine(c,p)<=radius);
      if (!items.length){ const nearest=lots.map(p=>({...p,_d:haversine(c,p)}))
        .sort((a,b)=>a._d-b._d).slice(0,3).map(({_d,...r})=>r);
        return { items: nearest }; }
      return { items }; }

The element copies `{...p}` and the `_d` scratch field are identities on
the value model; `sort((a,b)=>a._d-b._d)` is a stable sort ascending by
haversine distance, modelled with `List.mergeSort`. -/

section
open Classical

/-- The `lots.filter(p => haversine(c,p) <= radius)` subexpression of
`mock.parkingNear`. -/
noncomputable def withinRadiusLots (lat lng : ℚ) (radius : ℝ) (lots : List Lot) : List Lot :=
  lots.filter (fun p => decide (distanceMeters ⟨(lat : ℝ), (lng : ℝ)⟩ p.geo ≤ radius))

/-- The fallback branch of `mock.parkingNear`: decorate with the
haversine distance `_d`, `sort((a,b)=>a._d-b._d)`, `slice(0,3)`, strip
`_d` — i.e. the 3 nearest lots by distance from the center. -/
noncomputable def nearest3 (lat lng : ℚ) (lots : List Lot) : List Lot :=
  (lots.mergeSort (fun x y =>
    decide (distanceMeters ⟨(lat : ℝ), (lng : ℝ)⟩ x.geo
      ≤ distanceMeters ⟨(lat : ℝ), (lng : ℝ)⟩ y.geo))).take 3

/-- `mock.parkingNear(lat,lng,radius)`: the lots within `radius` meters
of the center, or — when that filter is empty — the 3 nearest lots. -/
noncomputable def parkingNear (lat lng : ℚ) (radius : ℝ) (lots : List Lot) : List Lot :=
  let items := withinRadiusLots lat lng radius lots
  if items.isEmpty then nearest3 lat lng lots
  else items

end

/-! ## The destination-resolve pipeline (`chooseDestination`)

`chooseDestination(place)` (`app.js` lines 61–83, `part_000` lines
133–159) runs synchronously up to `await api.parkingNear(...)` /
`api.parkingByDest(...)`: it sets `currentDestination = place` and
issues the fetch.  Its continuation — everything after the `await` —
clears the markers/list and renders `items` for the captured `place`,
with no check that `place` is still the most recently chosen
destination.  A run of overlapping resolves is therefore a list of
atomic events (the cooperative scheduler interleaves only at `await`),
each either the synchronous prefix of a resolve or its continuation
carrying the fetched items. -/

/-- The view state written by `chooseDestination`: the
`currentDestination` variable and the rendered snapshot (destination of
the rendered items, and the items themselves). -/
structure ViewState where
  currentDestination : Option Place
  visible : Option (Place × List Lot)
deriving DecidableEq, Repr

/-- An atomic step of an overlapped resolve: `start place` is the code
before the `await` (sets `currentDestination`), `finish place items` is
the continuation (renders `items` for the captured `place`). -/
inductive ResolveEv where
  | start : Place → ResolveEv
  | finish : Place → List Lot → ResolveEv
deriving DecidableEq, Repr

/-- Effect of one atomic step on the view state, read off
`chooseDestination`: the continuation overwrites the visible snapshot
unconditionally (the source has no staleness guard). -/
def resolveStep (s : ViewState) : ResolveEv → ViewState
  | .start p => { s with currentDestination := some p }
  | .finish p items => { s with visible := some (p, items) }

/-- Run a schedule of resolve events. -/
def runResolves (s : ViewState) (evs : List ResolveEv) : ViewState :=
  evs.foldl resolveStep s

/-- The payload of the last `finish` event of a schedule, if any. -/
def lastFinish (evs : List ResolveEv) : Option (Place × List Lot) :=
  evs.foldl (fun acc e =>
    match e with
    | .finish p items => some (p, items)
    | .start _ => acc) none

/-! ## The companion HTTP service, `GET /api/v1/parking`

`src/.idea/backend/server.js` lines 10–50:

    app.get('/api/v1/parking', (req, res) => {
        const { dest = '', lat, lng, radius = 900 } = req.query;
        const data = [ ...five records... ];
        let results = data;
        if (lat && lng) {
            ...haversine(atan2 form) of parseFloat(lat), parseFloat(lng)...
            results = results.filter(p => dist <= Number(radius));
        }
        const q = dest.toLowerCase().trim();
        if (q) {
            const tokens = q.split(/\s+/).filter(Boolean);
            results = results.filter(p => {
                const name = p.name.toLowerCase();
                return tokens.some(t => name.includes(t));
            });
        }
        res.json(results);
    });

Query-string values are strings when present; the `if (lat && lng)`
gate is JS truthiness (absent or empty string is falsy).  `parseFloat`
and `Number` are platform primitives, taken as parameters of the
model. -/

/-- A record of the service's fixed in-memory dataset (`data` in the
`GET /api/v1/parking` handler, `server.js` lines 14–20), in the wire
shape `{id,name,lat,lng,capacity,available}`. -/
structure ServiceLot where
  id : String
  name : String
  lat : ℚ
  lng : ℚ
  capacity : ℤ
  available : ℤ
deriving DecidableEq, Repr

/-- The `data` array of the `GET /api/v1/parking` handler
(`server.js` lines 14–20). -/
def parkingData : List ServiceLot :=
  [ ⟨"PARK001", "Flinders St Car Park",   -37.8183, 144.9671, 200,  35⟩,
    ⟨"PARK002", "Fed Square Parking",     -37.8179, 144.9691, 150,  50⟩,
    ⟨"PARK003", "QV Melbourne Parking",   -37.8103, 144.9643, 500, 120⟩,
    ⟨"PARK004", "Melbourne Central CP",   -37.8107, 144.9626, 450,  80⟩,
    ⟨"PARK005", "Southgate Car Park",     -37.8203, 144.9657, 300,  60⟩ ]

/-- JS truthiness of an optional query-string value: falsy when absent
or the empty string. -/
def truthy : Option String → Bool
  | none => false
  | some s => !(s == "")

/-- The characters matched by the JS regex class `\s` (whitespace used
by both `split(/\s+/)` and `String.prototype.trim`). -/
def isJsWs (c : Char) : Bool :=
  let n := c.toNat
  decide (9 ≤ n ∧ n ≤ 13) || decide (n = 32) || decide (n = 160) ||
  decide (n = 0x1680) || decide (0x2000 ≤ n ∧ n ≤ 0x200A) ||
  decide (n = 0x2028) || decide (n = 0x2029) || decide (n = 0x202F) ||
  decide (n = 0x205F) || decide (n = 0x3000) || decide (n = 0xFEFF)

/-- JS `String.prototype.trim`: strip whitespace from both ends. -/
def trimChars (cs : List Char) : List Char :=
  ((cs.dropWhile isJsWs).reverse.dropWhile isJsWs).reverse

/-- Lower-cased character list of a string (`toLowerCase()`; the
fixture and queries are ASCII, where `Char.toLower` agrees with JS). -/
def lowerChars (s : String) : List Char := s.toList.map Char.toLower

/-- `q.split(/\s+/).filter(Boolean)`: split a character list on runs of
`\s` characters, dropping empty tokens (the accumulator holds the
current token reversed). -/
def splitWsAux : List Char → List Char → List (List Char)
  | [], acc => if acc.isEmpty then [] else [acc.reverse]
  | c :: cs, acc =>
    if isJsWs c then
      if acc.isEmpty then splitWsAux cs []
      else acc.reverse :: splitWsAux cs []
    else splitWsAux cs (c :: acc)

/-- The `\s+`-separated tokens of a query, empties dropped. -/
def splitWs (cs : List Char) : List (List Char) := splitWsAux cs []

/-- Substring test, `name.includes(t)`: does `t` occur contiguously in
`hay`? -/
def charsContains (hay t : List Char) : Bool :=
  hay.tails.any (fun suf => t.isPrefixOf suf)

/-- `Math.atan2(y, x)`, as the argument of the complex number `x + iy`. -/
noncomputable def atan2Real (y x : ℝ) : ℝ := Complex.arg ⟨x, y⟩

/-- The per-record distance of the handler's radius filter
(`server.js` lines 28–34): haversine in `atan2` form with Earth radius
6 371 000 m, from the parsed center to the record's coordinates. -/
noncomputable def serverDist (lat0 lng0 : ℝ) (p : ServiceLot) : ℝ :=
  6371000 * (2 * atan2Real
    (Real.sqrt (Real.sin (toRad ((p.lat : ℝ) - lat0) / 2) ^ 2 +
      Real.cos (toRad lat0) * Real.cos (toRad (p.lat : ℝ)) *
        Real.sin (toRad ((p.lng : ℝ) - lng0) / 2) ^ 2))
    (Real.sqrt (1 - (Real.sin (toRad ((p.lat : ℝ) - lat0) / 2) ^ 2 +
      Real.cos (toRad lat0) * Real.cos (toRad (p.lat : ℝ)) *
        Real.sin (toRad ((p.lng : ℝ) - lng0) / 2) ^ 2))))

section
open Classical

/-- The `if (lat && lng)` block of the handler (`server.js` lines
25–37): when both query values are truthy, keep the records within
`Number(radius)` meters (`radius` defaulting to 900) of the
`parseFloat`-parsed center; otherwise pass `results` through.
`parseFloatFn`/`numberFn` model the JS `parseFloat`/`Number`
primitives. -/
noncomputable def radiusFilterStage (parseFloatFn numberFn : String → ℝ)
    (lat lng radius : Option String) (results : List ServiceLot) : List ServiceLot :=
  if truthy lat && truthy lng then
    results.filter (fun p => decide (serverDist
      (parseFloatFn (lat.getD "")) (parseFloatFn (lng.getD "")) p
        ≤ match radius with
          | none => (900 : ℝ)
          | some s => numberFn s))
  else results

end

/-- The `if (q)` block of the handler (`server.js` lines 40–47):
`q = dest.toLowerCase().trim()` (with `dest` defaulting to `''`); when
`q` is non-empty, keep the records some `\s+`-token of `q` occurs in
the lower-cased name of. -/
def nameFilterStage (dest : Option String) (results : List ServiceLot) : List ServiceLot :=
  let q := trimChars (lowerChars (dest.getD ""))
  if q.isEmpty then results
  else results.filter (fun p =>
    (splitWs q).any (fun t => charsContains (lowerChars p.name) t))

/-- `GET /api/v1/parking` (`server.js` lines 10–50): the fixture
filtered by the radius block, then by the name block. -/
noncomputable def handleParkingGet (parseFloatFn numberFn : String → ℝ)
    (dest lat lng radius : Option String) : List ServiceLot :=
  nameFilterStage dest (radiusFilterStage parseFloatFn numberFn lat lng radius parkingData)

end ParkingDemo

namespace ParkingDemo

/-! ## Helper lemmas about `updateFirst` and `pushUpdatesGo` -/

lemma updateLot_inv {l : Lot} (now : String) (delta : ℤ) (h : LotInv l) :
    LotInv (updateLot now delta l) := by
  obtain ⟨h0, hc⟩ := h
  constructor
  · exact le_max_left 0 _
  · exact max_le (le_trans h0 hc) (min_le_left _ _)

lemma updateLot_frame (now : String) (delta : ℤ) (l : Lot) :
    lotFrame (updateLot now delta l) = lotFrame l := rfl

/-- An update that preserves a per-lot predicate preserves it for the
pushed copy and for every element of the updated store. -/
lemma updateFirst_forall {Q : Lot → Prop} {p : Lot → Bool} {f : Lot → Lot}
    (hf : ∀ l, Q l → Q (f l)) :
    ∀ {lots u lots'}, (∀ l ∈ lots, Q l) →
      updateFirst p f lots = some (u, lots') → Q u ∧ ∀ x ∈ lots', Q x := by
  intro lots
  induction lots with
  | nil => intro u lots' _ h; simp [updateFirst] at h
  | cons a ls ih =>
    intro u lots' hall h
    by_cases hp : p a
    · simp [updateFirst, hp] at h
      obtain ⟨hu, hl'⟩ := h
      subst hu
      refine ⟨hf a (hall a (by simp)), ?_⟩
      intro x hx
      rw [← hl'] at hx
      rcases List.mem_cons.mp hx with h1 | h2
      · rw [h1]; exact hf a (hall a (by simp))
      · exact hall x (by simp [h2])
    · simp [updateFirst, hp] at h
      obtain ⟨u', ls', hrec, hu, hl'⟩ := h
      subst hu
      have hmem := ih (fun y hy => hall y (by simp [hy])) hrec
      refine ⟨hmem.1, ?_⟩
      intro x hx
      rw [← hl'] at hx
      rcases List.mem_cons.mp hx with h1 | h2
      · rw [h1]; exact hall a (by simp)
      · exact hmem.2 x h2

/-- Positionwise description of `updateFirst`: every position is either
untouched or holds `f` of the original element, the latter only at a
position whose element satisfies `p`. -/
lemma updateFirst_get? {p : Lot → Bool} {f : Lot → Lot} :
    ∀ {lots u lots'}, updateFirst p f lots = some (u, lots') →
      ∀ i : ℕ, lots'.get? i = lots.get? i ∨
        ∃ l, lots.get? i = some l ∧ p l = true ∧ lots'.get? i = some (f l) := by
  intro lots
  induction lots with
  | nil => intro u lots' h; simp [updateFirst] at h
  | cons l ls ih =>
    intro u lots' h i
    by_cases hp : p l
    · simp [updateFirst, hp] at h
      obtain ⟨hu, hl'⟩ := h
      subst hl'
      match i with
      | 0 => exact Or.inr ⟨l, rfl, hp, rfl⟩
      | i + 1 => exact Or.inl rfl
    · simp [updateFirst, hp] at h
      obtain ⟨u', ls', hrec, hu, hl'⟩ := h
      subst hl'
      match i with
      | 0 => exact Or.inl rfl
      | i + 1 => exact ih hrec i

lemma updateFirst_map_frame {p : Lot → Bool} {f : Lot → Lot}
    (hf : ∀ l, lotFrame (f l) = lotFrame l) :
    ∀ {lots u lots'}, updateFirst p f lots = some (u, lots') →
      lots'.map lotFrame = lots.map lotFrame := by
  intro lots
  induction lots with
  | nil => intro u lots' h; simp [updateFirst] at h
  | cons l ls ih =>
    intro u lots' h
    by_cases hp : p l
    · simp [updateFirst, hp] at h
      obtain ⟨hu, hl'⟩ := h
      subst hl'
      simp [hf l]
    · simp [updateFirst, hp] at h
      obtain ⟨u', ls', hrec, hu, hl'⟩ := h
      subst hl'
      simp [ih hrec]

lemma pushUpdatesGo_inv (deltas : ℕ → ℤ) (nows : ℕ → String) :
    ∀ (ids : List String) (lots : List Lot) (k : ℕ),
      (∀ l ∈ lots, LotInv l) →
      (∀ l ∈ (pushUpdatesGo deltas nows ids lots k).1, LotInv l) ∧
      (∀ r ∈ (pushUpdatesGo deltas nows ids lots k).2, LotInv r) := by
  intro ids
  induction ids with
  | nil => intro lots k h; simpa [pushUpdatesGo] using h
  | cons id ids ih =>
    intro lots k h
    unfold pushUpdatesGo
    cases hu : updateFirst (fun l => l.id == id) (updateLot (nows k) (deltas k)) lots with
    | none => exact ih lots k h
    | some r =>
      obtain ⟨u, lots'⟩ := r
      have hstep := updateFirst_forall (fun l hl => updateLot_inv (nows k) (deltas k) hl) h hu
      have := ih lots' (k + 1) hstep.2
      refine ⟨this.1, ?_⟩
      intro x hx
      rcases List.mem_cons.mp hx with h1 | h2
      · subst h1; exact hstep.1
      · exact this.2 x h2

lemma pushUpdatesGo_changes_ids (deltas : ℕ → ℤ) (nows : ℕ → String) (x : String) :
    ∀ (ids : List String) (lots : List Lot) (k : ℕ),
      (∀ l ∈ lots, l.id ≠ x) →
      ∀ r ∈ (pushUpdatesGo deltas nows ids lots k).2, r.id ≠ x := by
  intro ids
  induction ids with
  | nil => intro lots k _ r hr; simp [pushUpdatesGo] at hr
  | cons id ids ih =>
    intro lots k h r hr
    rw [pushUpdatesGo] at hr
    revert hr
    cases hu : updateFirst (fun l => l.id == id) (updateLot (nows k) (deltas k)) lots with
    | none => exact ih lots k h r
    | some pr =>
      obtain ⟨u, lots'⟩ := pr
      intro hr
      have hstep := updateFirst_forall
        (Q := fun l => l.id ≠ x) (f := updateLot (nows k) (deltas k))
        (fun l hl => hl) h hu
      rcases List.mem_cons.mp hr with h1 | h2
      · subst h1; exact hstep.1
      · exact ih lots' (k + 1) hstep.2 r h2

lemma pushUpdatesGo_frame (deltas : ℕ → ℤ) (nows : ℕ → String) :
    ∀ (ids : List String) (lots : List Lot) (k : ℕ),
      (pushUpdatesGo deltas nows ids lots k).1.map lotFrame = lots.map lotFrame ∧
      ∀ (i : ℕ) (l : Lot), lots.get? i = some l → l.id ∉ ids →
        (pushUpdatesGo deltas nows ids lots k).1.get? i = some l := by
  intro ids
  induction ids with
  | nil => intro lots k; exact ⟨rfl, fun i l h _ => h⟩
  | cons id ids ih =>
    intro lots k
    unfold pushUpdatesGo
    cases hu : updateFirst (fun l => l.id == id) (updateLot (nows k) (deltas k)) lots with
    | none =>
      have := ih lots k
      exact ⟨this.1, fun i l hget hni =>
        this.2 i l hget (fun hm => hni (List.mem_cons_of_mem _ hm))⟩
    | some pr =>
      obtain ⟨u, lots'⟩ := pr
      have hmap := updateFirst_map_frame
        (f := updateLot (nows k) (deltas k)) (fun l => rfl) hu
      have := ih lots' (k + 1)
      refine ⟨by rw [this.1, hmap], ?_⟩
      intro i l hget hni
      have hni' : l.id ∉ ids := fun hm => hni (List.mem_cons_of_mem _ hm)
      have hne : l.id ≠ id := fun he => hni (by simp [he])
      have hpos : lots'.get? i = some l := by
        rcases updateFirst_get? hu i with hsame | ⟨l', hl', hp, hset⟩
        · rw [hsame, hget]
        · rw [hget] at hl'
          injection hl' with he
          subst he
          exact absurd (by simpa using hp) hne
      exact this.2 i l hpos hni'

/-! ## Theorems: C1, C5, C8 -/

/-- C1: The claimed formula `round((capacity − available_spots) /
max(1, capacity) × 100)` is exactly what `part_000`'s `renderCharts`
computes — but `app.js`'s copy of `renderCharts` divides by the raw
capacity, so at `capacity = 0` it yields no number (JS `NaN`) instead
of `0`.  This theorem proves the amended claim: the `part_000` variant
clamps the divisor and satisfies both cited evaluations, and the
`app.js` variant agrees with it whenever `capacity ≥ 1`. -/
theorem occupancyPct_clamped_part000_only
    (capacity available_spots : ℤ) (h : 1 ≤ capacity) :
    occupancyPctPart000 capacity available_spots
      = round (((capacity : ℚ) - available_spots) / (max 1 (capacity : ℚ)) * 100)
    ∧ occupancyPctPart000 0 0 = 0
    ∧ occupancyPctPart000 100 25 = 75
    ∧ occupancyPctAppJs capacity available_spots
      = some (occupancyPctPart000 capacity available_spots) := by
  refine ⟨rfl, by norm_num [occupancyPctPart000], by norm_num [occupancyPctPart000], ?_⟩
  have hc : capacity ≠ 0 := by omega
  have hmax : max 1 (capacity : ℚ) = (capacity : ℚ) := by
    rw [max_eq_right]
    exact_mod_cast h
  simp [occupancyPctAppJs, occupancyPctPart000, hc, hmax]

/-- Witness for `occupancyPct_clamped_part000_only` at
`capacity = 100`, `available_spots = 25`. -/
theorem occupancyPct_clamped_part000_only_witness :
    (1 : ℤ) ≤ 100 ∧
    (occupancyPctPart000 100 25
      = round (((100 : ℚ) - 25) / (max 1 (100 : ℚ)) * 100)
    ∧ occupancyPctPart000 0 0 = 0
    ∧ occupancyPctPart000 100 25 = 75
    ∧ occupancyPctAppJs 100 25 = some (occupancyPctPart000 100 25)) :=
  ⟨by norm_num, occupancyPct_clamped_part000_only 100 25 (by norm_num)⟩

/-- C1 counterexample: in `app.js`'s `renderCharts` the divisor is not
clamped, so a lot with `capacity = 0` and `available_spots = 0` yields
no occupancy figure at all (JS `NaN`), not `0` as the claim states. -/
theorem occupancyPct_appJs_div_by_zero :
    occupancyPctAppJs 0 0 ≠ some 0 ∧ occupancyPctAppJs 0 0 = none := by
  constructor <;> simp [occupancyPctAppJs]

/-- C3: if every lot of the store satisfies
`0 ≤ available_spots ≤ capacity`, then after `pushUpdates` — for every
id list and every perturbation/clock oracle — every lot of the store
and every returned record still satisfies it: the
`Math.max(0, Math.min(capacity, ·))` update clamps into range. -/
theorem pushUpdates_clamps (deltas : ℕ → ℤ) (nows : ℕ → String)
    (ids : List String) (lots : List Lot)
    (h : ∀ l ∈ lots, 0 ≤ l.available_spots ∧ l.available_spots ≤ l.capacity) :
    (∀ l ∈ (pushUpdates deltas nows ids lots).1,
        0 ≤ l.available_spots ∧ l.available_spots ≤ l.capacity) ∧
    (∀ r ∈ (pushUpdates deltas nows ids lots).2,
        0 ≤ r.available_spots ∧ r.available_spots ≤ r.capacity) :=
  pushUpdatesGo_inv deltas nows ids lots 0 h

/-- Witness for `pushUpdates_clamps`: the fixture store, a large
negative delta, and ids `["CP-101"]`. -/
theorem pushUpdates_clamps_witness :
    (∀ l ∈ mockLots, 0 ≤ l.available_spots ∧ l.available_spots ≤ l.capacity) ∧
    ((∀ l ∈ (pushUpdates (fun _ => -100) (fun _ => "t") ["CP-101"] mockLots).1,
        0 ≤ l.available_spots ∧ l.available_spots ≤ l.capacity) ∧
     (∀ r ∈ (pushUpdates (fun _ => -100) (fun _ => "t") ["CP-101"] mockLots).2,
        0 ≤ r.available_spots ∧ r.available_spots ≤ r.capacity)) :=
  ⟨by decide, pushUpdates_clamps (fun _ => -100) (fun _ => "t") ["CP-101"] mockLots (by decide)⟩

/-- C7: an id that is not the id of any stored lot is silently skipped
by `pushUpdates` (`findIndex` returns `-1` and the loop `continue`s):
no record with that id appears in the returned list.  The model is a
total function, mirroring that the source path has no throwing
operation. -/
theorem pushUpdates_skips_unknown (deltas : ℕ → ℤ) (nows : ℕ → String)
    (ids : List String) (lots : List Lot) (x : String)
    (h : ∀ l ∈ lots, l.id ≠ x) :
    ∀ r ∈ (pushUpdates deltas nows ids lots).2, r.id ≠ x :=
  pushUpdatesGo_changes_ids deltas nows x ids lots 0 h

/-- Witness for `pushUpdates_skips_unknown`: calling with the unknown id
`"CP-999"` on the fixture store. -/
theorem pushUpdates_skips_unknown_witness :
    (∀ l ∈ mockLots, l.id ≠ "CP-999") ∧
    ∀ r ∈ (pushUpdates (fun _ => 1) (fun _ => "t") ["CP-999", "CP-101"] mockLots).2,
      r.id ≠ "CP-999" :=
  ⟨by decide,
   pushUpdates_skips_unknown (fun _ => 1) (fun _ => "t") ["CP-999", "CP-101"] mockLots
     ("CP-999") (by decide)⟩

/-- C9 (frame property): `pushUpdates` writes only `available_spots` and
`updated_at`.  The store keeps its length and order, every lot keeps its
`id`, `name`, `lat`, `lng`, `capacity` and `price` (the `lotFrame`
projection of the store is unchanged), and a lot whose id does not
appear in the id list is unchanged in every field. -/
theorem pushUpdates_frame (deltas : ℕ → ℤ) (nows : ℕ → String)
    (ids : List String) (lots : List Lot) :
    (pushUpdates deltas nows ids lots).1.map lotFrame = lots.map lotFrame ∧
    (pushUpdates deltas nows ids lots).1.length = lots.length ∧
    ∀ (i : ℕ) (l : Lot), lots.get? i = some l → l.id ∉ ids →
      (pushUpdates deltas nows ids lots).1.get? i = some l := by
  have h := pushUpdatesGo_frame deltas nows ids lots 0
  refine ⟨h.1, ?_, h.2⟩
  have := congrArg List.length h.1
  simpa using this

/-- Witness for `pushUpdates_frame`: the fixture store with id list
`["CP-101"]`; position 1 (`CP-102`) is untouched. -/
theorem pushUpdates_frame_witness :
    ((pushUpdates (fun _ => 2) (fun _ => "t") ["CP-101"] mockLots).1.map lotFrame
        = mockLots.map lotFrame) ∧
    (mockLots.get? 1
        = some ⟨"CP-102", "Russell St Car Park", -37.8128, 144.9675, 160, 47, some ("$4/hr"), ""⟩
      ∧ ("CP-102" : String) ∉ (["CP-101"] : List String)) ∧
    (pushUpdates (fun _ => 2) (fun _ => "t") ["CP-101"] mockLots).1.get? 1
        = some ⟨"CP-102", "Russell St Car Park", -37.8128, 144.9675, 160, 47, some ("$4/hr"), ""⟩ :=
  ⟨(pushUpdates_frame (fun _ => 2) (fun _ => "t") ["CP-101"] mockLots).1,
   ⟨rfl, by decide⟩,
   (pushUpdates_frame (fun _ => 2) (fun _ => "t") ["CP-101"] mockLots).2.2 1
     ⟨"CP-102", "Russell St Car Park", -37.8128, 144.9675, 160, 47, some ("$4/hr"), ""⟩
     rfl (by decide)⟩

/-- C5: `distanceMeters` is total over all real coordinate pairs and
satisfies `0 ≤ distance(a,b)`, `distance(a,a) = 0` and
`distance(a,b) = distance(b,a)` exactly (the `ℝ` model has no
floating-point rounding), with Earth radius 6 371 000 m fixed in the
definition. -/
theorem distanceMeters_nonneg_refl_symm (a b : Geo) :
    0 ≤ distanceMeters a b
    ∧ distanceMeters a a = 0
    ∧ distanceMeters a b = distanceMeters b a := by
  refine ⟨?_, ?_, ?_⟩
  · unfold distanceMeters
    have h1 : (0:ℝ) ≤ Real.arcsin (Real.sqrt (
        Real.sin (toRad (b.lat - a.lat) / 2) ^ 2 +
        Real.cos (toRad a.lat) * Real.cos (toRad b.lat) *
          Real.sin (toRad (b.lng - a.lng) / 2) ^ 2)) :=
      Real.arcsin_nonneg.mpr (Real.sqrt_nonneg _)
    linarith
  · simp [distanceMeters, toRad]
  · unfold distanceMeters
    have key : ∀ x y : ℝ,
        Real.sin (toRad (x - y) / 2) ^ 2 = Real.sin (toRad (y - x) / 2) ^ 2 := by
      intro x y
      have hx : toRad (x - y) / 2 = -(toRad (y - x) / 2) := by unfold toRad; ring
      rw [hx, Real.sin_neg, neg_pow]
      ring
    rw [key b.lat a.lat, key b.lng a.lng,
      mul_comm (Real.cos (toRad a.lat)) (Real.cos (toRad b.lat))]

/-- C8: `mapBackendParking` keeps the record's `available_spots` when
present, otherwise takes the service's `available` field, otherwise `0`
(i.e. `available_spots ?? available ?? 0` on the modelled record
shapes), and carries `id`, `name`, `lat`, `lng`, `capacity` over
unchanged. -/
theorem mapBackendParking_normalizes (now : String) (p : WireRecord) :
    (mapBackendParking now p).available_spots
        = (p.available_spots.getD (p.available.getD 0))
    ∧ (mapBackendParking now p).id = p.id
    ∧ (mapBackendParking now p).name = p.name
    ∧ (mapBackendParking now p).lat = p.lat
    ∧ (mapBackendParking now p).lng = p.lng
    ∧ (mapBackendParking now p).capacity = p.capacity := by
  refine ⟨?_, rfl, rfl, rfl, rfl, rfl⟩
  cases h : p.available_spots <;> simp [mapBackendParking, h]

/-! ## C2: the nearest-3 fallback of `mock.parkingNear` -/

/-- Taking a prefix of a mergeSorted list yields elements of the input
that are `le`-below everything left out. -/
lemma take_mergeSort_spec (le : Lot → Lot → Bool)
    (htrans : ∀ a b c, le a b = true → le b c = true → le a c = true)
    (htotal : ∀ a b, (le a b || le b a) = true)
    (lots : List Lot) (n : ℕ) :
    ((lots.mergeSort le).take n).length = min n lots.length ∧
    (∀ x ∈ (lots.mergeSort le).take n, x ∈ lots) ∧
    (∀ x ∈ (lots.mergeSort le).take n, ∀ y ∈ lots,
      y ∉ (lots.mergeSort le).take n → le x y = true) := by
  have hperm := List.mergeSort_perm lots le
  have hsorted := List.sorted_mergeSort htrans htotal lots
  refine ⟨?_, ?_, ?_⟩
  · rw [List.length_take, List.length_mergeSort]
  · intro x hx
    exact hperm.subset (List.take_subset _ _ hx)
  · intro x hx y hy hyn
    have hsplit : List.Pairwise (fun a b => le a b = true)
        ((lots.mergeSort le).take n ++ (lots.mergeSort le).drop n) := by
      rw [List.take_append_drop]; exact hsorted
    obtain ⟨-, -, hcross⟩ := List.pairwise_append.mp hsplit
    have hy' : y ∈ (lots.mergeSort le).take n ++ (lots.mergeSort le).drop n := by
      rw [List.take_append_drop]
      exact hperm.mem_iff.mpr hy
    rcases List.mem_append.mp hy' with hin | hin
    · exact absurd hin hyn
    · exact hcross x hx y hin

/-- The distance-specific instance of `take_mergeSort_spec` for the
`nearest3` fallback. -/
lemma nearest3_spec (lat lng : ℚ) (lots : List Lot) :
    (nearest3 lat lng lots).length = min 3 lots.length ∧
    (∀ x ∈ nearest3 lat lng lots, x ∈ lots) ∧
    (∀ x ∈ nearest3 lat lng lots, ∀ y ∈ lots, y ∉ nearest3 lat lng lots →
      distanceMeters ⟨(lat : ℝ), (lng : ℝ)⟩ x.geo
        ≤ distanceMeters ⟨(lat : ℝ), (lng : ℝ)⟩ y.geo) := by
  unfold nearest3
  have hspec := take_mergeSort_spec
    (fun x y => decide (distanceMeters ⟨(lat : ℝ), (lng : ℝ)⟩ x.geo
      ≤ distanceMeters ⟨(lat : ℝ), (lng : ℝ)⟩ y.geo))
    (fun a b c h1 h2 =>
       decide_eq_true (le_trans (of_decide_eq_true h1) (of_decide_eq_true h2)))
    (fun a b => by simp only [Bool.or_eq_true, decide_eq_true_eq]; exact le_total _ _)
    lots 3
  exact ⟨hspec.1, hspec.2.1,
    fun x hx y hy hyn => of_decide_eq_true (hspec.2.2 x hx y hy hyn)⟩

/-- Membership in the radius filter of `mock.parkingNear`. -/
lemma mem_withinRadiusLots {lat lng : ℚ} {radius : ℝ} {lots : List Lot} {x : Lot} :
    x ∈ withinRadiusLots lat lng radius lots ↔
      x ∈ lots ∧ distanceMeters ⟨(lat : ℝ), (lng : ℝ)⟩ x.geo ≤ radius := by
  simp [withinRadiusLots, List.mem_filter]

/-- C2: for every center and radius, if the store is non-empty then
`mock.parkingNear` never returns an empty list; when some lot lies
within the radius it returns exactly the lots within the radius, and
when no lot does it returns exactly `min 3 (store size)` lots, all from
the store, each no farther from the center than any lot left out (the
nearest 3), instead of an empty list. -/
theorem parkingNear_nonempty_fallback (lat lng : ℚ) (radius : ℝ)
    (lots : List Lot) (hne : lots ≠ []) :
    parkingNear lat lng radius lots ≠ [] ∧
    ((∃ p ∈ lots, distanceMeters ⟨(lat : ℝ), (lng : ℝ)⟩ p.geo ≤ radius) →
      parkingNear lat lng radius lots = withinRadiusLots lat lng radius lots ∧
      ∀ x, x ∈ parkingNear lat lng radius lots ↔
        x ∈ lots ∧ distanceMeters ⟨(lat : ℝ), (lng : ℝ)⟩ x.geo ≤ radius) ∧
    ((∀ p ∈ lots, ¬ distanceMeters ⟨(lat : ℝ), (lng : ℝ)⟩ p.geo ≤ radius) →
      (parkingNear lat lng radius lots).length = min 3 lots.length ∧
      (∀ x ∈ parkingNear lat lng radius lots, x ∈ lots) ∧
      (∀ x ∈ parkingNear lat lng radius lots, ∀ y ∈ lots,
        y ∉ parkingNear lat lng radius lots →
          distanceMeters ⟨(lat : ℝ), (lng : ℝ)⟩ x.geo
            ≤ distanceMeters ⟨(lat : ℝ), (lng : ℝ)⟩ y.geo)) := by
  cases hemp : (withinRadiusLots lat lng radius lots).isEmpty with
  | false =>
    have hres : parkingNear lat lng radius lots = withinRadiusLots lat lng radius lots := by
      simp [parkingNear, hemp]
    refine ⟨?_, fun _ => ⟨hres, fun x => by rw [hres]; exact mem_withinRadiusLots⟩, ?_⟩
    · rw [hres]
      intro hnil
      rw [hnil] at hemp
      simp at hemp
    · intro hfar
      exfalso
      have : withinRadiusLots lat lng radius lots = [] := by
        rw [← List.isEmpty_iff]
        rw [List.isEmpty_iff]
        rcases hx : withinRadiusLots lat lng radius lots with _ | ⟨a, as⟩
        · rfl
        · have ha := mem_withinRadiusLots.mp (hx ▸ List.mem_cons_self a as)
          exact absurd ha.2 (hfar a ha.1)
      rw [this] at hemp
      simp at hemp
  | true =>
    have hres : parkingNear lat lng radius lots = nearest3 lat lng lots := by
      simp [parkingNear, hemp]
    have hspec := nearest3_spec lat lng lots
    have hlenpos : 0 < (nearest3 lat lng lots).length := by
      rw [hspec.1]
      have := List.length_pos.mpr hne
      omega
    refine ⟨?_, ?_, ?_⟩
    · rw [hres]
      exact List.length_pos.mp hlenpos
    · rintro ⟨p, hp, hle⟩
      exfalso
      have hmem : p ∈ withinRadiusLots lat lng radius lots :=
        mem_withinRadiusLots.mpr ⟨hp, hle⟩
      rw [List.isEmpty_iff.mp hemp] at hmem
      simp at hmem
    · intro _
      rw [hres]
      exact hspec

/-- Witness for `parkingNear_nonempty_fallback`: a one-lot store with a
negative radius (no lot can be within it, since distances are
non-negative). -/
theorem parkingNear_nonempty_fallback_witness :
    (([⟨"CP-101", "Flinders Lane Car Park", -37.8173, 144.9655, 220, 88, some ("$3/hr"), ""⟩]
        : List Lot) ≠ []) ∧
    (parkingNear 0 0 (-1)
      [⟨"CP-101", "Flinders Lane Car Park", -37.8173, 144.9655, 220, 88, some ("$3/hr"), ""⟩]
      ≠ [] ∧
    ((∃ p ∈ ([⟨"CP-101", "Flinders Lane Car Park", -37.8173, 144.9655, 220, 88,
          some ("$3/hr"), ""⟩] : List Lot),
        distanceMeters ⟨((0 : ℚ) : ℝ), ((0 : ℚ) : ℝ)⟩ p.geo ≤ (-1 : ℝ)) →
      parkingNear 0 0 (-1)
          [⟨"CP-101", "Flinders Lane Car Park", -37.8173, 144.9655, 220, 88, some ("$3/hr"), ""⟩]
        = withinRadiusLots 0 0 (-1)
          [⟨"CP-101", "Flinders Lane Car Park", -37.8173, 144.9655, 220, 88, some ("$3/hr"), ""⟩] ∧
      ∀ x, x ∈ parkingNear 0 0 (-1)
          [⟨"CP-101", "Flinders Lane Car Park", -37.8173, 144.9655, 220, 88, some ("$3/hr"), ""⟩] ↔
        x ∈ ([⟨"CP-101", "Flinders Lane Car Park", -37.8173, 144.9655, 220, 88,
          some ("$3/hr"), ""⟩] : List Lot) ∧
        distanceMeters ⟨((0 : ℚ) : ℝ), ((0 : ℚ) : ℝ)⟩ x.geo ≤ (-1 : ℝ)) ∧
    ((∀ p ∈ ([⟨"CP-101", "Flinders Lane Car Park", -37.8173, 144.9655, 220, 88,
          some ("$3/hr"), ""⟩] : List Lot),
        ¬ distanceMeters ⟨((0 : ℚ) : ℝ), ((0 : ℚ) : ℝ)⟩ p.geo ≤ (-1 : ℝ)) →
      (parkingNear 0 0 (-1)
        [⟨"CP-101", "Flinders Lane Car Park", -37.8173, 144.9655, 220, 88,
          some ("$3/hr"), ""⟩]).length
        = min 3 ([⟨"CP-101", "Flinders Lane Car Park", -37.8173, 144.9655, 220, 88,
          some ("$3/hr"), ""⟩] : List Lot).length ∧
      (∀ x ∈ parkingNear 0 0 (-1)
          [⟨"CP-101", "Flinders Lane Car Park", -37.8173, 144.9655, 220, 88, some ("$3/hr"), ""⟩],
        x ∈ ([⟨"CP-101", "Flinders Lane Car Park", -37.8173, 144.9655, 220, 88,
          some ("$3/hr"), ""⟩] : List Lot)) ∧
      (∀ x ∈ parkingNear 0 0 (-1)
          [⟨"CP-101", "Flinders Lane Car Park", -37.8173, 144.9655, 220, 88, some ("$3/hr"), ""⟩],
        ∀ y ∈ ([⟨"CP-101", "Flinders Lane Car Park", -37.8173, 144.9655, 220, 88,
          some ("$3/hr"), ""⟩] : List Lot),
        y ∉ parkingNear 0 0 (-1)
          [⟨"CP-101", "Flinders Lane Car Park", -37.8173, 144.9655, 220, 88, some ("$3/hr"), ""⟩] →
          distanceMeters ⟨((0 : ℚ) : ℝ), ((0 : ℚ) : ℝ)⟩ x.geo
            ≤ distanceMeters ⟨((0 : ℚ) : ℝ), ((0 : ℚ) : ℝ)⟩ y.geo))) :=
  ⟨List.cons_ne_nil _ _,
   parkingNear_nonempty_fallback 0 0 (-1)
     [⟨"CP-101", "Flinders Lane Car Park", -37.8173, 144.9655, 220, 88, some ("$3/hr"), ""⟩]
     (List.cons_ne_nil _ _)⟩

/-! ## C4: overlapping destination resolves -/

/-- Folding the `lastFinish` step from any accumulator. -/
lemma foldl_lastFinish (evs : List ResolveEv) :
    ∀ acc : Option (Place × List Lot),
      evs.foldl (fun acc e =>
        match e with
        | .finish p items => some (p, items)
        | .start _ => acc) acc
      = (lastFinish evs).elim acc some := by
  induction evs with
  | nil => intro acc; rfl
  | cons e evs ih =>
    intro acc
    cases e with
    | start p =>
      exact ih acc
    | finish p items =>
      show List.foldl _ (some (p, items)) evs
        = (lastFinish (ResolveEv.finish p items :: evs)).elim acc some
      rw [ih (some (p, items))]
      have h2 : lastFinish (ResolveEv.finish p items :: evs)
          = (lastFinish evs).elim (some (p, items)) some := ih (some (p, items))
      rw [h2]
      cases lastFinish evs <;> rfl

/-- C4 (amended): `chooseDestination` has no staleness guard after its
`await`, so the visible snapshot after any schedule of overlapping
resolves is the one rendered by the continuation that runs last —
last-completion-wins, not last-initiation-wins.  In particular the
result of a superseded resolve is applied, not discarded, whenever its
fetch completes after the newer resolve's. -/
theorem chooseDestination_last_completion_wins (s : ViewState) (evs : List ResolveEv) :
    (runResolves s evs).visible = (lastFinish evs).elim s.visible some := by
  induction evs generalizing s with
  | nil => rfl
  | cons e evs ih =>
    cases e with
    | start p =>
      show (runResolves (resolveStep s (ResolveEv.start p)) evs).visible
        = (lastFinish (ResolveEv.start p :: evs)).elim s.visible some
      rw [ih]
      rfl
    | finish p items =>
      show (runResolves (resolveStep s (ResolveEv.finish p items)) evs).visible
        = (lastFinish (ResolveEv.finish p items :: evs)).elim s.visible some
      rw [ih]
      have h2 : lastFinish (ResolveEv.finish p items :: evs)
          = (lastFinish evs).elim (some (p, items)) some :=
        foldl_lastFinish evs (some (p, items))
      rw [h2]
      cases lastFinish evs <;> rfl

/-- C4 counterexample: resolve(A) then resolve(B) are initiated, then
B's fetch completes, then A's.  The final visible snapshot matches A —
the superseded resolve's result was applied on arrival, so the claim
"the final visible snapshot matches B's destination only, regardless of
completion order" is false of the code. -/
theorem chooseDestination_race_counterexample :
    (runResolves ⟨none, none⟩
      [ResolveEv.start ⟨"Federation Square", -37.817979, 144.969093⟩,
       ResolveEv.start ⟨"Monash Caulfield Campus", -37.8770, 145.0443⟩,
       ResolveEv.finish ⟨"Monash Caulfield Campus", -37.8770, 145.0443⟩ [],
       ResolveEv.finish ⟨"Federation Square", -37.817979, 144.969093⟩ []]).visible
      = some (⟨"Federation Square", -37.817979, 144.969093⟩, []) ∧
    (⟨"Federation Square", -37.817979, 144.969093⟩ : Place)
      ≠ ⟨"Monash Caulfield Campus", -37.8770, 145.0443⟩ := by
  refine ⟨rfl, fun h => ?_⟩
  have := congrArg Place.name h
  simp at this

/-! ## C6, C10: the `GET /api/v1/parking` handler -/

/-- C6: with no coordinates given, `GET /api/v1/parking` does no radius
filtering whatever `radius` value is supplied, and keeps a record iff
ANY `\\s+`-token of the lower-cased, trimmed `dest` occurs in the
record's lower-cased name; in particular `dest=flinders` returns
exactly one record, the one with id `PARK001`
(`'Flinders St Car Park'`). -/
theorem parkingGet_dest_flinders (parseFloatFn numberFn : String → ℝ) :
    (∀ (dest : String) (r : Option String),
        (trimChars (lowerChars dest)).isEmpty = false →
        handleParkingGet parseFloatFn numberFn (some dest) none none r
          = parkingData.filter (fun p =>
              (splitWs (trimChars (lowerChars dest))).any
                (fun t => charsContains (lowerChars p.name) t))) ∧
    (∀ r : Option String,
        handleParkingGet parseFloatFn numberFn (some ("flinders")) none none r
          = [⟨"PARK001", "Flinders St Car Park", -37.8183, 144.9671, 200, 35⟩]) ∧
    (handleParkingGet parseFloatFn numberFn (some ("flinders")) none none none).map
        ServiceLot.id
      = ["PARK001"] := by
  refine ⟨?_, fun r => rfl, rfl⟩
  intro dest r hq
  show nameFilterStage (some dest)
      (radiusFilterStage parseFloatFn numberFn none none r parkingData) = _
  have hr : radiusFilterStage parseFloatFn numberFn none none r parkingData
      = parkingData := rfl
  rw [hr]
  simp only [nameFilterStage, Option.getD_some, hq, Bool.false_eq_true, if_false]

/-- Witness for `parkingGet_dest_flinders`: `dest=flinders` with a
radius value supplied but no coordinates. -/
theorem parkingGet_dest_flinders_witness :
    ((trimChars (lowerChars ("flinders"))).isEmpty = false) ∧
    handleParkingGet (fun _ => 0) (fun _ => 0) (some ("flinders")) none none (some ("42"))
      = parkingData.filter (fun p =>
          (splitWs (trimChars (lowerChars ("flinders")))).any
            (fun t => charsContains (lowerChars p.name) t)) :=
  ⟨rfl, (parkingGet_dest_flinders (fun _ => 0) (fun _ => 0)).1 ("flinders") (some ("42")) rfl⟩

/-- C10: the radius filter of `GET /api/v1/parking` runs only when both
the `lat` and `lng` query values are truthy — so only when both are
present: if either is missing, the radius block passes every fixture
record to the name filter, the supplied `radius` value is irrelevant,
and the response is exactly the name-filtered fixture. -/
theorem parkingGet_radius_needs_both_coords
    (parseFloatFn numberFn : String → ℝ)
    (dest : Option String) (lat lng : Option String) (r1 r2 : Option String)
    (h : lat = none ∨ lng = none) :
    (truthy lat && truthy lng) = false ∧
    radiusFilterStage parseFloatFn numberFn lat lng r1 parkingData = parkingData ∧
    handleParkingGet parseFloatFn numberFn dest lat lng r1
      = handleParkingGet parseFloatFn numberFn dest lat lng r2 ∧
    handleParkingGet parseFloatFn numberFn dest lat lng r1
      = nameFilterStage dest parkingData := by
  have hgate : (truthy lat && truthy lng) = false := by
    rcases h with h | h
    · subst h; rfl
    · subst h; simp [truthy]
  have hstage : ∀ r,
      radiusFilterStage parseFloatFn numberFn lat lng r parkingData = parkingData := by
    intro r
    simp only [radiusFilterStage, hgate, Bool.false_eq_true, if_false]
  exact ⟨hgate, hstage r1,
    by simp only [handleParkingGet, hstage],
    by simp only [handleParkingGet, hstage]⟩

/-- Witness for `parkingGet_radius_needs_both_coords`: `lat` missing,
`lng` supplied, two different radius values. -/
theorem parkingGet_radius_needs_both_coords_witness :
    ((none : Option String) = none ∨ (some ("1") : Option String) = none) ∧
    ((truthy none && truthy (some ("1"))) = false ∧
      radiusFilterStage (fun _ => 0) (fun _ => 0) none (some ("1")) (some ("5")) parkingData
        = parkingData ∧
      handleParkingGet (fun _ => 0) (fun _ => 0) (some ("flinders")) none (some ("1"))
          (some ("5"))
        = handleParkingGet (fun _ => 0) (fun _ => 0) (some ("flinders")) none (some ("1"))
          (some ("77")) ∧
      handleParkingGet (fun _ => 0) (fun _ => 0) (some ("flinders")) none (some ("1"))
          (some ("5"))
        = nameFilterStage (some ("flinders")) parkingData) :=
  ⟨Or.inl rfl,
   parkingGet_radius_needs_both_coords (fun _ => 0) (fun _ => 0) (some ("flinders"))
     none (some ("1")) (some ("5")) (some ("77")) (Or.inl rfl)⟩

end ParkingDemo
